import Mathlib

/-!
Verification of the greenland-tracker monitoring pipeline.

The development embeds the two monitoring scripts:

* `Chokepoints` — `src/greenland_chokepoints.py`: the aircraft classifier,
  the arrival heuristic, the priority-alert rules, the cross-invocation
  dwell tracker and the capped alert store.  Everything here is computable:
  timestamps are integer seconds (the script stores `%Y-%m-%d %H:%M:%S`
  strings, exact to the second, and parses them back with `strptime`),
  numeric telemetry fields are rationals.
* `Monitor` — `src/greenland_monitor.py`: the haversine distance and the
  two nearest-point lookups over the static registries.  Coordinates and
  distances are real numbers (the script computes with floating point;
  the embedding uses exact reals with `Real.sin`, `Real.cos`,
  `Real.arctan`, `Real.sqrt`).

Definitions come first, theorems after them.
-/

namespace Chokepoints

/-- Scheduled-operator callsign prefixes (`SCHEDULED_CALLSIGN_PREFIXES`,
`src/greenland_chokepoints.py` lines 121-127): Air Greenland, Icelandair,
Atlantic Airways, SAS, Danish Air Transport. -/
def SCHEDULED_CALLSIGN_PREFIXES : List String :=
  ["GRL", "ICE", "FLI", "SAS", "DAT"]

/-- `classify_aircraft` (`src/greenland_chokepoints.py` lines 150-187).
The callsign is stripped and upper-cased, the hex lower-cased; rules are
evaluated top to bottom, the first match returning
`(priority, classification, notes)`.  The scheduled-traffic for-loop,
which returns on the first matching prefix, is `List.find?`. -/
def classify_aircraft (callsign icao24 : String) : Nat × String × String :=
  let cs := callsign.trim.toUpper
  let hex := icao24.toLower
  match SCHEDULED_CALLSIGN_PREFIXES.find? (fun p => cs.startsWith p) with
  | some p => (5, "scheduled", "Scheduled: " ++ p)
  | none =>
    if cs.startsWith "RCH" || cs.startsWith "RRR" || cs.startsWith "REACH"
        || cs.startsWith "CNV" || cs.startsWith "DUKE" then
      (4, "military_us", "US Military")
    else if cs.startsWith "DAF" || cs.startsWith "DNK" || cs.startsWith "DANSUP" then
      (4, "military_dk", "Danish Military")
    else if cs.startsWith "CFC" || cs.startsWith "CFF" || cs.startsWith "CANFORCE" then
      (4, "military_ca", "Canadian Military")
    else if hex.startsWith "a" then
      (1, "private_us", "US N-number - PRIORITY TARGET")
    else if hex.startsWith "c0" || hex.startsWith "c1" || hex.startsWith "c2"
        || hex.startsWith "c3" then
      (1, "private_ca", "Canadian C-number - PRIORITY TARGET")
    else if hex.startsWith "4" then
      (2, "private_eu", "European registration")
    else if hex.startsWith "tf" then
      (2, "private_is", "Icelandic registration")
    else
      (3, "unknown", "Unknown registration")

/-- The arrival heuristic of `process_aircraft`
(`src/greenland_chokepoints.py` lines 255-258):
`is_low = altitude is not None and altitude < 3000`,
`is_slow = velocity is not None and velocity < 100`,
`likely_arrival = (on_ground or (is_low and is_slow)) and distance_km < 20`.
`on_ground` is tri-state (`None`/`False`/`True`); Python's `or` treats
`None` and `False` alike, which is `Option.getD false`. -/
def likely_arrival (altitude velocity : Option ℚ) (on_ground : Option Bool)
    (distance_km : ℚ) : Bool :=
  let is_low := match altitude with | some a => decide (a < 3000) | none => false
  let is_slow := match velocity with | some v => decide (v < 100) | none => false
  (on_ground.getD false || (is_low && is_slow)) && decide (distance_km < 20)

/-- One classified observation, the dictionary built by `process_aircraft`
(`src/greenland_chokepoints.py` lines 260-277).  The timestamp is integer
seconds; `altitude_m`, `velocity_ms` and `on_ground` keep their optional
(possibly absent) nature. -/
structure Record where
  timestamp : Int
  airport_icao : String
  airport_name : String
  airport_signal : String
  icao24 : String
  callsign : String
  lat : ℚ
  lon : ℚ
  altitude_m : Option ℚ
  velocity_ms : Option ℚ
  on_ground : Option Bool
  distance_km : ℚ
  likely_arrival : Bool
  priority : Nat
  classification : String
  classification_notes : String
deriving DecidableEq, Repr

/-- The fields of a `CHOKE_POINTS` entry that the embedded functions read:
`name` and `signal` (`generate_priority_alert` reads no other key; the
coordinates, runway, radius, emoji and notes fields only feed the fetcher
and the map renderer, which are outside this embedding). -/
structure ChokeInfo where
  name : String
  signal : String
deriving DecidableEq, Repr

/-- `CHOKE_POINTS` (`src/greenland_chokepoints.py` lines 42-79), in its
insertion order: Narsarsuaq is the sole `RED`-signal hub. -/
def CHOKE_POINTS : List (String × ChokeInfo) :=
  [("BGBW", ⟨"Narsarsuaq", "RED"⟩),
   ("BGGH", ⟨"Nuuk", "YELLOW"⟩),
   ("BGSF", ⟨"Kangerlussuaq", "LOW"⟩)]

/-- A priority alert (`generate_priority_alert`,
`src/greenland_chokepoints.py` lines 358-390).  Only the `CRITICAL` branch
carries an `action` key. -/
structure PriorityAlert where
  timestamp : Int
  level : String
  emoji : String
  message : String
  details : String
  action : Option String
  record : Record
deriving DecidableEq, Repr

/-- Python renders a missing optional number as `None` inside f-strings. -/
def showOptQ : Option ℚ → String
  | some q => toString q
  | none => "None"

/-- `{record['callsign'] or record['icao24']}`: the callsign when it is a
non-empty string, the hex otherwise. -/
def callsignOr (callsign icao24 : String) : String :=
  if callsign ≠ "" then callsign else icao24

/-- `generate_priority_alert` (`src/greenland_chokepoints.py` lines
358-390).  The source indexes `CHOKE_POINTS[record['airport_icao']]`,
which raises `KeyError` off the three monitored airports; every record the
pipeline builds carries one of the three keys, and the unreachable lookup
failure is modeled as `none`. -/
def generate_priority_alert (record : Record) : Option PriorityAlert :=
  match List.lookup record.airport_icao CHOKE_POINTS with
  | none => none
  | some airport =>
    if record.priority = 1 ∧ airport.signal = "RED" then
      some { timestamp := record.timestamp, level := "CRITICAL", emoji := "🚨🚨🚨",
             message := "US/CA BIZJET AT NARSARSUAQ: "
               ++ callsignOr record.callsign record.icao24,
             details := record.classification_notes ++ " | "
               ++ toString record.distance_km ++ "km from airport | Alt: "
               ++ showOptQ record.altitude_m ++ "m",
             action := some
               "Cross-reference with greenmin.gl claim activity. Check hex at hexdb.io.",
             record := record }
    else if record.priority = 1 then
      some { timestamp := record.timestamp, level := "HIGH", emoji := "🟡",
             message := "US/CA aircraft at " ++ airport.name ++ ": "
               ++ callsignOr record.callsign record.icao24,
             details := record.classification_notes,
             action := none,
             record := record }
    else if record.priority = 2 ∧ airport.signal = "RED" then
      some { timestamp := record.timestamp, level := "MEDIUM", emoji := "📍",
             message := "European aircraft at Narsarsuaq: "
               ++ callsignOr record.callsign record.icao24,
             details := record.classification_notes,
             action := none,
             record := record }
    else
      none

/-- One value of the persisted dwell dictionary (`update_dwell_tracking`,
`src/greenland_chokepoints.py` lines 304-317).  `dwell_hours` is absent on
creation and (re)written on every invocation's alert pass; the source
stores `round(dwell_hours, 1)`, a display precision this embedding keeps
exact. -/
structure DwellEntry where
  icao24 : String
  callsign : String
  airport : String
  airport_icao : String
  first_seen : Int
  last_seen : Int
  classification : String
  dwell_hours : Option ℚ
deriving DecidableEq, Repr

/-- The persisted dwell store: a Python dict in insertion order with
string keys `"<icao24>_<airport_icao>"`. -/
abbrev DwellStore : Type := List (String × DwellEntry)

/-- `f"{record['icao24']}_{record['airport_icao']}"`. -/
def dwell_key (r : Record) : String := r.icao24 ++ "_" ++ r.airport_icao

/-- The two `continue` guards of the tracking loop
(`src/greenland_chokepoints.py` lines 297-300): the observation is used
only when `on_ground` is truthy (so `True`, not `None` or `False`) and
`priority <= 2`. -/
def qualifies (r : Record) : Bool :=
  r.on_ground.getD false && decide (r.priority ≤ 2)

/-- The dict value created for a key seen for the first time
(`src/greenland_chokepoints.py` lines 305-313): first-seen and last-seen
both start at the observation timestamp. -/
def new_dwell_entry (r : Record) : DwellEntry :=
  { icao24 := r.icao24, callsign := r.callsign, airport := r.airport_name,
    airport_icao := r.airport_icao, first_seen := r.timestamp,
    last_seen := r.timestamp, classification := r.classification,
    dwell_hours := none }

/-- The in-place update of an existing entry
(`src/greenland_chokepoints.py` lines 315-317): only `last_seen` moves,
and the callsign is refreshed when the new one is non-empty; `first_seen`
is untouched. -/
def updated_dwell_entry (e : DwellEntry) (r : Record) : DwellEntry :=
  { e with
    last_seen := r.timestamp
    callsign := if r.callsign ≠ "" then r.callsign else e.callsign }

/-- The body of the tracking loop for one record
(`src/greenland_chokepoints.py` lines 296-317): a qualifying observation
creates a fresh entry (appended, as dict insertion does) when its key is
absent, and otherwise rewrites the existing entry in place. -/
def apply_observation (store : DwellStore) (r : Record) : DwellStore :=
  if qualifies r then
    let key := dwell_key r
    match List.lookup key store with
    | none => store ++ [(key, new_dwell_entry r)]
    | some _ =>
        store.map (fun kv =>
          if kv.1 = key then (kv.1, updated_dwell_entry kv.2 r) else kv)
  else store

/-- The whole observation loop of `update_dwell_tracking`. -/
def updated_store (store : DwellStore) (records : List Record) : DwellStore :=
  records.foldl apply_observation store

/-- Dwell duration in hours: `(last - first).total_seconds() / 3600`. -/
def dwell_hours_of (e : DwellEntry) : ℚ := ((e.last_seen - e.first_seen : Int) : ℚ) / 3600

/-- An entry with its derived `dwell_hours` field written back
(`src/greenland_chokepoints.py` lines 322-325). -/
def with_dwell_entry (e : DwellEntry) : DwellEntry :=
  { e with dwell_hours := some (dwell_hours_of e) }

/-- The `data['dwell_hours'] = ...` writes of the alert pass
(`src/greenland_chokepoints.py` line 325), applied to every entry. -/
def with_dwell (store : DwellStore) : DwellStore :=
  store.map (fun kv => (kv.1, with_dwell_entry kv.2))

/-- An extended-dwell alert (`src/greenland_chokepoints.py` lines
329-334).  The source dict has keys `type`, `priority`, `message`, `data`;
the message interpolates the dwell with `:.1f`, kept exact here. -/
structure DwellAlert where
  alert_type : String
  priority : String
  message : String
  data : DwellEntry
deriving DecidableEq, Repr

/-- The alert built for one long-staying entry. -/
def mk_dwell_alert (e : DwellEntry) : DwellAlert :=
  { alert_type := "EXTENDED_DWELL", priority := "HIGH",
    message := "🚨 " ++ callsignOr e.callsign e.icao24
      ++ " on ground at Narsarsuaq for " ++ toString (dwell_hours_of e) ++ " hours",
    data := e }

/-- The alert pass (`src/greenland_chokepoints.py` lines 320-334): one
alert per entry with `dwell_hours >= 4 and airport_icao == 'BGBW'`, run on
the store after the new observations were folded in. -/
def extended_dwell_alerts (store : DwellStore) : List DwellAlert :=
  store.filterMap (fun kv =>
    if 4 ≤ dwell_hours_of kv.2 ∧ kv.2.airport_icao = "BGBW" then
      some (mk_dwell_alert kv.2)
    else none)

/-- The cleanup of `update_dwell_tracking` (`src/greenland_chokepoints.py`
lines 336-339): keep an entry only when its `last_seen` is strictly newer
than `current_time - 48h`. -/
def clean_old (store : DwellStore) (current_time : Int) : DwellStore :=
  store.filter (fun kv => decide (current_time - 48 * 3600 < kv.2.last_seen))

/-- `update_dwell_tracking` (`src/greenland_chokepoints.py` lines
280-344): fold the new observations into the loaded store, run the alert
pass (which also writes `dwell_hours`), then delete entries stale by more
than 48 hours, in that order.  Returns the persisted store and the alerts. -/
def update_dwell_tracking (store : DwellStore) (records : List Record)
    (current_time : Int) : DwellStore × List DwellAlert :=
  let tracked := with_dwell (updated_store store records)
  (clean_old tracked current_time, extended_dwell_alerts tracked)

/-- The alert-store step of `main` (`src/greenland_chokepoints.py` lines
567-585): when the invocation produced no alert the persisted list is not
touched at all; otherwise the new alerts (minus their `record` payload,
which does not affect the list shape and is left to the element type) are
appended and the list is cut to its last 100 entries
(`existing_alerts[-100:]`). -/
def save_alerts_step {α : Type} (existing : List α) (new_alerts : List α) : List α :=
  if new_alerts.isEmpty then existing
  else
    let appended := existing ++ new_alerts
    appended.drop (appended.length - 100)

/-- Keys of the dwell dict are pairwise distinct (true of every Python
dict; the update loop preserves it). -/
def keys_nodup (store : DwellStore) : Prop := (store.map Prod.fst).Nodup

/-- Every entry sits under the key built from its own fields, as
`update_dwell_tracking` writes them. -/
def well_keyed (store : DwellStore) : Prop :=
  ∀ kv ∈ store, kv.1 = kv.2.icao24 ++ "_" ++ kv.2.airport_icao

/-- The C8 invariant: first-seen never exceeds last-seen. -/
def dwell_inv (store : DwellStore) : Prop :=
  ∀ kv ∈ store, kv.2.first_seen ≤ kv.2.last_seen

/-- A stored entry whose last-seen (time 0) is 53 hours stale at an
invocation at time 190800 = 53 * 3600. -/
def c1_stale_entry : DwellEntry :=
  { icao24 := "a1b2c3", callsign := "", airport := "Nuuk", airport_icao := "BGGH",
    first_seen := 0, last_seen := 0, classification := "private_us",
    dwell_hours := none }

/-- A qualifying observation (on ground, priority 1) for the same key,
53 hours after `c1_stale_entry` was last seen. -/
def c1_new_record : Record :=
  { timestamp := 190800, airport_icao := "BGGH", airport_name := "Nuuk",
    airport_signal := "YELLOW", icao24 := "a1b2c3", callsign := "N123AB",
    lat := 64, lon := -51, altitude_m := none, velocity_ms := none,
    on_ground := some true, distance_km := 5, likely_arrival := true,
    priority := 1, classification := "private_us",
    classification_notes := "US N-number - PRIORITY TARGET" }

/-- An entry at Narsarsuaq with exactly 4 hours of dwell. -/
def c3_entry : DwellEntry :=
  { icao24 := "cafe01", callsign := "N77X", airport := "Narsarsuaq",
    airport_icao := "BGBW", first_seen := 0, last_seen := 14400,
    classification := "private_us", dwell_hours := none }

/-- A one-entry store holding `c3_entry` under its own key. -/
def c3_store : DwellStore := [("cafe01_BGBW", c3_entry)]

/-- A qualifying observation used to exercise the C8 invariant. -/
def c8_record : Record :=
  { timestamp := 100, airport_icao := "BGBW", airport_name := "Narsarsuaq",
    airport_signal := "RED", icao24 := "abc123", callsign := "N1", lat := 61,
    lon := -45, altitude_m := some 0, velocity_ms := some 0,
    on_ground := some true, distance_km := 1, likely_arrival := true,
    priority := 1, classification := "private_us",
    classification_notes := "US N-number - PRIORITY TARGET" }

end Chokepoints

namespace Monitor

noncomputable section

/-- `math.radians`: degrees to radians. -/
def radians (x : ℝ) : ℝ := x * (Real.pi / 180)

/-- `math.atan2 y x` over the reals (signed zeros aside): the angle of the
point `(x, y)`.  The haversine code below only ever reaches the `0 < x`
branch, where it is `arctan (y / x)`. -/
def atan2 (y x : ℝ) : ℝ :=
  if 0 < x then Real.arctan (y / x)
  else if x < 0 then
    (if 0 ≤ y then Real.arctan (y / x) + Real.pi else Real.arctan (y / x) - Real.pi)
  else
    (if 0 < y then Real.pi / 2 else if y < 0 then -(Real.pi / 2) else 0)

/-- The intermediate `a` of `haversine_km`
(`src/greenland_monitor.py` line 130):
`sin(dlat/2)**2 + cos(lat1_rad) * cos(lat2_rad) * sin(dlon/2)**2`. -/
def hav_a (lat1 lon1 lat2 lon2 : ℝ) : ℝ :=
  Real.sin (radians (lat2 - lat1) / 2) ^ 2
    + Real.cos (radians lat1) * Real.cos (radians lat2)
      * Real.sin (radians (lon2 - lon1) / 2) ^ 2

/-- `haversine_km` (`src/greenland_monitor.py` lines 118-133; the
identical formula is `src/greenland_chokepoints.py` lines 140-147):
great-circle distance on a sphere of radius `R = 6371` km,
`R * c` with `c = 2 * atan2(sqrt(a), sqrt(1-a))`. -/
def haversine_km (lat1 lon1 lat2 lon2 : ℝ) : ℝ :=
  6371 * 2 * atan2 (Real.sqrt (hav_a lat1 lon1 lat2 lon2))
    (Real.sqrt (1 - hav_a lat1 lon1 lat2 lon2))

/-- The fields of a registry entry that `find_nearest_airport` reads:
display name and coordinates (`runway_m`, `type`, `iata` and `notes` feed
only the map renderer). -/
structure LocInfo where
  name : String
  lat : ℝ
  lon : ℝ

/-- `GREENLAND_AIRPORTS` (`src/greenland_monitor.py` lines 34-66) in dict
insertion order. -/
def GREENLAND_AIRPORTS : List (String × LocInfo) :=
  [("BGGH", ⟨"Nuuk", 64.1909, -51.6781⟩),
   ("BGSF", ⟨"Kangerlussuaq", 67.0122, -50.7116⟩),
   ("BGBW", ⟨"Narsarsuaq", 61.1605, -45.4260⟩),
   ("BGTL", ⟨"Thule/Pituffik", 76.5312, -68.7032⟩),
   ("BGJN", ⟨"Ilulissat", 69.2432, -51.0571⟩),
   ("BGKK", ⟨"Kulusuk", 65.5736, -37.1236⟩),
   ("BGAA", ⟨"Aasiaat", 68.7218, -52.7847⟩),
   ("BGCO", ⟨"Nerlerit Inaat", 70.7431, -22.6506⟩),
   ("BGMQ", ⟨"Maniitsoq", 65.4125, -52.9394⟩),
   ("BGPT", ⟨"Paamiut", 61.9922, -49.6625⟩),
   ("BGQQ", ⟨"Qaanaaq", 77.4886, -69.3887⟩),
   ("BGUQ", ⟨"Qaarsut", 70.7342, -52.6962⟩),
   ("BGSS", ⟨"Sisimiut", 66.9513, -53.7293⟩),
   ("BGUK", ⟨"Upernavik", 72.7902, -56.1306⟩)]

/-- `MINING_HELIPORTS` (`src/greenland_monitor.py` lines 69-78). -/
def MINING_HELIPORTS : List (String × LocInfo) :=
  [("BGJH", ⟨"Qaqortoq Heliport", 60.7158, -46.0478⟩),
   ("BGNS", ⟨"Narsaq Heliport", 60.9167, -46.0500⟩),
   ("BGNN", ⟨"Nanortalik Heliport", 60.1419, -45.2328⟩),
   ("BGNL", ⟨"Nalunaq Heliport", 60.2333, -44.8000⟩)]

/-- `{**GREENLAND_AIRPORTS, **MINING_HELIPORTS}`: the two key sets are
disjoint, so the merge is concatenation in insertion order. -/
def all_locations : List (String × LocInfo) := GREENLAND_AIRPORTS ++ MINING_HELIPORTS

/-- Distance from a query point to a registry entry, as computed inside
the scan loop of `find_nearest_airport`. -/
def loc_dist (lat lon : ℝ) (p : String × LocInfo) : ℝ :=
  haversine_km lat lon p.2.lat p.2.lon

/-- One iteration of the scan of `find_nearest_airport`
(`src/greenland_monitor.py` lines 218-231).  The source starts from
`min_dist_km = inf`, `nearest = None`; every real distance beats the
infinite start, which is the `none` case here, and afterwards the running
best is replaced only on a strict `<`. -/
def nearest_step (lat lon : ℝ) (best : Option (String × String × ℝ))
    (p : String × LocInfo) : Option (String × String × ℝ) :=
  match best with
  | none => some (p.1, p.2.name, loc_dist lat lon p)
  | some b => if loc_dist lat lon p < b.2.2 then some (p.1, p.2.name, loc_dist lat lon p)
              else some b

/-- `find_nearest_airport` (`src/greenland_monitor.py` lines 218-231):
linear scan over airports and heliports, returning
`(icao, name, dist_km)`. -/
def find_nearest_airport (lat lon : ℝ) : Option (String × String × ℝ) :=
  all_locations.foldl (nearest_step lat lon) none

/-- The fields of a `MINING_PROJECTS` entry that `find_nearest_mine`
reads: name, coordinates and company (`commodity` and `status` feed only
the map renderer). -/
structure MineInfo where
  name : String
  lat : ℝ
  lon : ℝ
  company : String

/-- `MINING_PROJECTS` (`src/greenland_monitor.py` lines 81-100) in dict
insertion order. -/
def MINING_PROJECTS : List (String × MineInfo) :=
  [("tanbreez", ⟨"Tanbreez/Kringlerne", 60.95, -45.95, "Critical Metals Corp"⟩),
   ("kvanefjeld", ⟨"Kvanefjeld", 60.98, -45.90, "Energy Transition Minerals"⟩),
   ("nalunaq", ⟨"Nalunaq Gold Mine", 60.23, -44.80, "Amaroq Minerals"⟩),
   ("amitsoq", ⟨"Amitsoq Graphite", 60.75, -45.40, "GreenRoc Mining"⟩),
   ("white_mountain", ⟨"White Mountain", 66.95, -50.90, "Lumina Sustainable Materials"⟩),
   ("west_greenland_hub", ⟨"West Greenland Hub", 64.20, -51.50, "Amaroq Minerals"⟩)]

/-- The scan loop of `find_nearest_mine` (`src/greenland_monitor.py`
lines 234-246): the loop returns on the FIRST project whose distance is
within the threshold, in dict order. -/
def first_mine_within (lat lon threshold_km : ℝ) :
    List (String × MineInfo) → Option (String × String × String × ℝ)
  | [] => none
  | p :: rest =>
    if haversine_km lat lon p.2.lat p.2.lon ≤ threshold_km then
      some (p.1, p.2.name, p.2.company, haversine_km lat lon p.2.lat p.2.lon)
    else first_mine_within lat lon threshold_km rest

/-- `find_nearest_mine` (`src/greenland_monitor.py` lines 234-246),
returning `(project_id, name, company, dist_km)` or `none`.  The source
defaults `threshold_km` to 50; call sites here pass it explicitly. -/
def find_nearest_mine (lat lon threshold_km : ℝ) : Option (String × String × String × ℝ) :=
  first_mine_within lat lon threshold_km MINING_PROJECTS

end

end Monitor

/-! ## Theorems -/

open Chokepoints Monitor

set_option linter.unnecessarySeqFocus false

section AlertStoreLemmas

/-- One invocation keeps the alert store within the cap. -/
theorem save_alerts_step_length {α : Type} (s n : List α) (h : s.length ≤ 100) :
    (save_alerts_step s n).length ≤ 100 := by
  unfold save_alerts_step
  split
  · exact h
  · simp only [List.length_drop]
    omega

end AlertStoreLemmas

/-- C9: the likely-arrival flag is true exactly when the distance is under
20 km and either the on-ground flag is `True` or both altitude and
velocity are present and under their bounds; an absent altitude or
velocity fails its sub-condition.  With `onGround = True` at 5 km the flag
is true whatever the altitude and velocity; off-ground at 5000 m and 5 km
it is false whatever the velocity. -/
theorem C9_arrival_heuristic :
    (∀ (altitude velocity : Option ℚ) (on_ground : Option Bool) (d : ℚ),
      likely_arrival altitude velocity on_ground d = true ↔
        (d < 20 ∧ (on_ground = some true ∨
          ((∃ a, altitude = some a ∧ a < 3000) ∧ (∃ v, velocity = some v ∧ v < 100))))) ∧
    (∀ (altitude velocity : Option ℚ),
      likely_arrival altitude velocity (some true) 5 = true) ∧
    (∀ (velocity : Option ℚ),
      likely_arrival (some 5000) velocity (some false) 5 = false) := by
  refine ⟨?_, ?_, ?_⟩
  · intro altitude velocity on_ground d
    rcases on_ground with _ | b
    · rcases altitude with _ | a <;> rcases velocity with _ | v <;>
        simp [likely_arrival] <;> tauto
    · rcases b <;> rcases altitude with _ | a <;> rcases velocity with _ | v <;>
        simp [likely_arrival] <;> tauto
  · intro altitude velocity
    simp [likely_arrival]
    decide
  · intro velocity
    rfl

/-- C5: from an empty store, any number of invocations leaves at most 100
persisted alerts, and every invocation's result is a suffix of the old
store with the new alerts appended — what truncation drops is always an
oldest-first prefix, never the newest entries. -/
theorem C5_alert_store_cap :
    (∀ (α : Type) (batches : List (List α)),
      (batches.foldl save_alerts_step ([] : List α)).length ≤ 100) ∧
    (∀ (α : Type) (store new_alerts : List α),
      save_alerts_step store new_alerts <:+ store ++ new_alerts) := by
  constructor
  · intro α batches
    suffices h : ∀ (bs : List (List α)) (s : List α), s.length ≤ 100 →
        (bs.foldl save_alerts_step s).length ≤ 100 by
      exact h batches [] (by simp)
    intro bs
    induction bs with
    | nil => intro s hs; simpa using hs
    | cons b rest ih =>
      intro s hs
      exact ih (save_alerts_step s b) (save_alerts_step_length s b hs)
  · intro α store new_alerts
    unfold save_alerts_step
    split
    · next h =>
      rw [List.isEmpty_iff.mp h, List.append_nil]
    · exact List.drop_suffix _ _

/-- C10: an invocation with no new alerts leaves the persisted alert list
exactly as it was — the save block is guarded by `if all_alerts:` — so the
100-entry truncation runs only in invocations that produced an alert, and
a pre-existing over-cap list (here 150 entries) stays over the cap. -/
theorem C10_no_alert_no_store_change :
    (∀ (α : Type) (store : List α), save_alerts_step store [] = store) ∧
    (save_alerts_step (List.replicate 150 (0 : ℕ)) [] = List.replicate 150 (0 : ℕ)) ∧
    (save_alerts_step (List.replicate 150 (0 : ℕ)) []).length = 150 := by
  refine ⟨fun α store => rfl, rfl, by simp [save_alerts_step]⟩

/-- C6: a priority-1 record at the RED-signal hub BGBW gets exactly one
CRITICAL alert; priority 1 at the other monitored airports gets exactly
one HIGH alert; priority 2 at BGBW gets exactly one MEDIUM alert; every
other combination at a monitored airport — priority-3 "unknown" traffic in
particular — gets none. -/
theorem C6_priority_alert_rules (r : Record) :
    ((r.priority = 1 ∧ r.airport_icao = "BGBW") →
      (generate_priority_alert r).map PriorityAlert.level = some "CRITICAL") ∧
    ((r.priority = 1 ∧ (r.airport_icao = "BGGH" ∨ r.airport_icao = "BGSF")) →
      (generate_priority_alert r).map PriorityAlert.level = some "HIGH") ∧
    ((r.priority = 2 ∧ r.airport_icao = "BGBW") →
      (generate_priority_alert r).map PriorityAlert.level = some "MEDIUM") ∧
    ((r.airport_icao ∈ ["BGBW", "BGGH", "BGSF"] ∧ r.priority ≠ 1 ∧
        ¬(r.priority = 2 ∧ r.airport_icao = "BGBW")) →
      generate_priority_alert r = none) := by
  refine ⟨?_, ?_, ?_, ?_⟩
  · rintro ⟨hp, hi⟩
    simp [generate_priority_alert, CHOKE_POINTS, hi, hp, List.lookup]
  · rintro ⟨hp, hi | hi⟩ <;>
      simp [generate_priority_alert, CHOKE_POINTS, hi, hp, List.lookup]
  · rintro ⟨hp, hi⟩
    simp [generate_priority_alert, CHOKE_POINTS, hi, hp, List.lookup]
  · rintro ⟨hmem, hp1, hnot⟩
    have hcases : r.airport_icao = "BGBW" ∨ r.airport_icao = "BGGH" ∨
        r.airport_icao = "BGSF" := by simpa using hmem
    rcases hcases with hi | hi | hi
    · have hp2 : ¬ r.priority = 2 := fun h2 => hnot ⟨h2, hi⟩
      simp [generate_priority_alert, CHOKE_POINTS, hi, hp1, hp2, List.lookup]
    · simp [generate_priority_alert, CHOKE_POINTS, hi, hp1, List.lookup]
    · simp [generate_priority_alert, CHOKE_POINTS, hi, hp1, List.lookup]

/-- The claim's rule-1 condition: the normalized callsign carries a
scheduled-operator prefix. -/
def sched_match (callsign : String) : Prop :=
  ∃ p ∈ SCHEDULED_CALLSIGN_PREFIXES, (callsign.trim.toUpper).startsWith p = true

/-- The claim's rule-2 condition: one of the three military prefix groups
of `classify_aircraft` matches the normalized callsign. -/
def military_match (callsign : String) : Prop :=
  ((callsign.trim.toUpper).startsWith "RCH" || (callsign.trim.toUpper).startsWith "RRR"
    || (callsign.trim.toUpper).startsWith "REACH" || (callsign.trim.toUpper).startsWith "CNV"
    || (callsign.trim.toUpper).startsWith "DUKE") = true ∨
  ((callsign.trim.toUpper).startsWith "DAF" || (callsign.trim.toUpper).startsWith "DNK"
    || (callsign.trim.toUpper).startsWith "DANSUP") = true ∨
  ((callsign.trim.toUpper).startsWith "CFC" || (callsign.trim.toUpper).startsWith "CFF"
    || (callsign.trim.toUpper).startsWith "CANFORCE") = true

/-- The claim's rule-3 condition: the lowercased hex sits in the US
(`a`) or Canadian (`c0`-`c3`) block. -/
def us_ca_hex (icao24 : String) : Prop :=
  (icao24.toLower.startsWith "a") = true ∨
  (icao24.toLower.startsWith "c0" || icao24.toLower.startsWith "c1"
    || icao24.toLower.startsWith "c2" || icao24.toLower.startsWith "c3") = true

/-- The claim's rule-4 condition: the lowercased hex sits in a
secondary-region block (European `4`, Icelandic `tf`). -/
def secondary_hex (icao24 : String) : Prop :=
  (icao24.toLower.startsWith "4") = true ∨ (icao24.toLower.startsWith "tf") = true

/-- C4: `classify_aircraft` applies its rules top to bottom, first match
winning: a scheduled prefix gives `(5, scheduled)` whatever else matches;
otherwise a military prefix gives priority 4; otherwise a US or Canadian
hex gives priority 1; otherwise a secondary-region hex gives priority 2;
otherwise the result is `(3, unknown)`. -/
theorem C4_classifier_rule_order (callsign icao24 : String) :
    (sched_match callsign →
      (classify_aircraft callsign icao24).1 = 5 ∧
      (classify_aircraft callsign icao24).2.1 = "scheduled") ∧
    (¬ sched_match callsign → military_match callsign →
      (classify_aircraft callsign icao24).1 = 4) ∧
    (¬ sched_match callsign → ¬ military_match callsign → us_ca_hex icao24 →
      (classify_aircraft callsign icao24).1 = 1) ∧
    (¬ sched_match callsign → ¬ military_match callsign → ¬ us_ca_hex icao24 →
      secondary_hex icao24 →
      (classify_aircraft callsign icao24).1 = 2) ∧
    (¬ sched_match callsign → ¬ military_match callsign → ¬ us_ca_hex icao24 →
      ¬ secondary_hex icao24 →
      classify_aircraft callsign icao24 = (3, "unknown", "Unknown registration")) := by
  have hfind : ∀ h : ¬ sched_match callsign,
      SCHEDULED_CALLSIGN_PREFIXES.find?
        (fun p => (callsign.trim.toUpper).startsWith p) = none := by
    intro h
    rw [List.find?_eq_none]
    intro p hp hs
    exact h ⟨p, hp, by simpa using hs⟩
  refine ⟨?_, ?_, ?_, ?_, ?_⟩
  · rintro ⟨p, hp, hs⟩
    rcases hq : SCHEDULED_CALLSIGN_PREFIXES.find?
        (fun x => (callsign.trim.toUpper).startsWith x) with _ | q
    · exact absurd hs (by simpa using List.find?_eq_none.mp hq p hp)
    · constructor
      · unfold classify_aircraft
        simp only []
        rw [hq]
      · unfold classify_aircraft
        simp only []
        rw [hq]
  · intro hns hm
    simp only [military_match] at hm
    unfold classify_aircraft
    simp only []
    rw [hfind hns]
    rcases hm with h | h | h
    · simp only [h]
      rfl
    · cases hus : ((callsign.trim.toUpper).startsWith "RCH"
          || (callsign.trim.toUpper).startsWith "RRR"
          || (callsign.trim.toUpper).startsWith "REACH"
          || (callsign.trim.toUpper).startsWith "CNV"
          || (callsign.trim.toUpper).startsWith "DUKE")
      · simp only [hus, h]
        rfl
      · simp only [hus]
        rfl
    · cases hus : ((callsign.trim.toUpper).startsWith "RCH"
          || (callsign.trim.toUpper).startsWith "RRR"
          || (callsign.trim.toUpper).startsWith "REACH"
          || (callsign.trim.toUpper).startsWith "CNV"
          || (callsign.trim.toUpper).startsWith "DUKE")
      · cases hdk : ((callsign.trim.toUpper).startsWith "DAF"
            || (callsign.trim.toUpper).startsWith "DNK"
            || (callsign.trim.toUpper).startsWith "DANSUP")
        · simp only [hus, hdk, h]
          rfl
        · simp only [hus, hdk]
          rfl
      · simp only [hus]
        rfl
  · intro hns hnm h3
    simp only [military_match, not_or, Bool.not_eq_true] at hnm
    obtain ⟨hm1, hm2, hm3⟩ := hnm
    unfold classify_aircraft
    simp only []
    rw [hfind hns]
    simp only [hm1, hm2, hm3]
    rcases h3 with h | h
    · simp only [h]
      rfl
    · cases ha : icao24.toLower.startsWith "a"
      · simp only [ha, h]
        rfl
      · simp only [ha]
        rfl
  · intro hns hnm hn3 h4
    simp only [military_match, not_or, Bool.not_eq_true] at hnm
    obtain ⟨hm1, hm2, hm3⟩ := hnm
    simp only [us_ca_hex, not_or, Bool.not_eq_true] at hn3
    obtain ⟨ha, hc⟩ := hn3
    unfold classify_aircraft
    simp only []
    rw [hfind hns]
    simp only [hm1, hm2, hm3, ha, hc]
    rcases h4 with h | h
    · simp only [h]
      rfl
    · cases h4a : icao24.toLower.startsWith "4"
      · simp only [h4a, h]
        rfl
      · simp only [h4a]
        rfl
  · intro hns hnm hn3 hn4
    simp only [military_match, not_or, Bool.not_eq_true] at hnm
    obtain ⟨hm1, hm2, hm3⟩ := hnm
    simp only [us_ca_hex, not_or, Bool.not_eq_true] at hn3
    obtain ⟨ha, hc⟩ := hn3
    simp only [secondary_hex, not_or, Bool.not_eq_true] at hn4
    obtain ⟨h4, htf⟩ := hn4
    unfold classify_aircraft
    simp only []
    rw [hfind hns]
    simp only [hm1, hm2, hm3, ha, hc, h4, htf]
    rfl

section DwellLemmas

/-- A key present in an association list makes `List.lookup` succeed. -/
theorem lookup_isSome_of_mem {l : DwellStore} {k : String} {e : DwellEntry}
    (h : (k, e) ∈ l) : (List.lookup k l).isSome = true := by
  induction l with
  | nil => simp at h
  | cons kv t ih =>
    obtain ⟨k', v⟩ := kv
    rcases List.mem_cons.mp h with h1 | h1
    · obtain ⟨rfl, rfl⟩ := Prod.mk.injEq .. ▸ h1
      simp [List.lookup_cons]
    · by_cases hk : (k == k')
      · simp [List.lookup_cons, hk]
      · simp [List.lookup_cons, hk]
        exact ⟨e, h1⟩

/-- With pairwise-distinct keys, a key determines its entry. -/
theorem nodup_key_unique {l : DwellStore} (hnd : keys_nodup l) {k : String}
    {a b : DwellEntry} (ha : (k, a) ∈ l) (hb : (k, b) ∈ l) : a = b := by
  induction l with
  | nil => simp at ha
  | cons kv t ih =>
    simp only [keys_nodup, List.map_cons, List.nodup_cons] at hnd
    obtain ⟨hknotin, hnd'⟩ := hnd
    rcases List.mem_cons.mp ha with h1 | h1 <;> rcases List.mem_cons.mp hb with h2 | h2
    · rw [← h1] at h2
      exact congrArg Prod.snd h2.symm
    · exact absurd (List.mem_map.mpr ⟨(k, b), h2, rfl⟩) (by rw [← h1] at hknotin; exact hknotin)
    · exact absurd (List.mem_map.mpr ⟨(k, a), h1, rfl⟩) (by rw [← h2] at hknotin; exact hknotin)
    · exact ih hnd' h1 h2

/-- What one observation step can put in the store: an untouched old
entry, the fresh entry for the observation's key, or an old entry with its
`last_seen` (and possibly callsign) rewritten. -/
theorem apply_observation_mem {s : DwellStore} {r : Record} {kv : String × DwellEntry}
    (h : kv ∈ apply_observation s r) :
    kv ∈ s ∨
      (qualifies r = true ∧
        (kv = (dwell_key r, new_dwell_entry r) ∨
          ∃ kv' ∈ s, kv'.1 = dwell_key r ∧ kv = (kv'.1, updated_dwell_entry kv'.2 r))) := by
  simp only [apply_observation] at h
  split at h
  · next hq =>
    split at h
    · next hl =>
      rcases List.mem_append.mp h with h1 | h1
      · exact Or.inl h1
      · exact Or.inr ⟨hq, Or.inl (by simpa using h1)⟩
    · next e0 hl =>
      rcases List.mem_map.mp h with ⟨kv', hkv', heq⟩
      by_cases hk : kv'.1 = dwell_key r
      · rw [if_pos hk] at heq
        exact Or.inr ⟨hq, Or.inr ⟨kv', hkv', hk, heq.symm⟩⟩
      · rw [if_neg hk] at heq
        exact Or.inl (heq ▸ hkv')
  · next => exact Or.inl h

/-- Keys after one observation step: unchanged, or the fresh key appended
when it was absent. -/
theorem apply_observation_keys (s : DwellStore) (r : Record) :
    (apply_observation s r).map Prod.fst = s.map Prod.fst ∨
      ((apply_observation s r).map Prod.fst = s.map Prod.fst ++ [dwell_key r] ∧
        List.lookup (dwell_key r) s = none) := by
  simp only [apply_observation]
  split
  · split
    · next hl => exact Or.inr ⟨by simp, hl⟩
    · next e0 hl =>
      left
      rw [List.map_map]
      apply List.map_congr_left
      intro kv _
      by_cases hk : kv.1 = dwell_key r <;> simp [Function.comp, hk]
  · exact Or.inl rfl

/-- One observation step keeps keys pairwise distinct. -/
theorem keys_nodup_apply {s : DwellStore} (r : Record) (h : keys_nodup s) :
    keys_nodup (apply_observation s r) := by
  rcases apply_observation_keys s r with hk | ⟨hk, hl⟩
  · unfold keys_nodup
    rw [hk]
    exact h
  · have hnot : dwell_key r ∉ s.map Prod.fst := by
      intro hmem
      obtain ⟨kv, hkv, hfst⟩ := List.mem_map.mp hmem
      have hm : (dwell_key r, kv.2) ∈ s := by
        rw [← hfst]
        exact hkv
      have hsome := lookup_isSome_of_mem hm
      rw [hl] at hsome
      simp at hsome
    unfold keys_nodup
    rw [hk]
    simp [List.nodup_append, hnot]
    exact h

/-- One observation step keeps every entry under its own key. -/
theorem well_keyed_apply {s : DwellStore} {r : Record} (h : well_keyed s) :
    well_keyed (apply_observation s r) := by
  intro kv hkv
  rcases apply_observation_mem hkv with h1 | ⟨_, h1 | ⟨kv', hkv', hk, heq⟩⟩
  · exact h kv h1
  · rw [h1]
    rfl
  · rw [heq]
    simpa [updated_dwell_entry] using h kv' hkv'

/-- The whole observation loop keeps keys pairwise distinct. -/
theorem keys_nodup_updated_store (records : List Record) :
    ∀ {s : DwellStore}, keys_nodup s → keys_nodup (updated_store s records) := by
  induction records with
  | nil => intro s h; exact h
  | cons r rest ih =>
    intro s h
    exact ih (keys_nodup_apply r h)

/-- The whole observation loop keeps every entry under its own key. -/
theorem well_keyed_updated_store (records : List Record) :
    ∀ {s : DwellStore}, well_keyed s → well_keyed (updated_store s records) := by
  induction records with
  | nil => intro s h; exact h
  | cons r rest ih =>
    intro s h
    exact ih (well_keyed_apply h)

/-- Writing `dwell_hours` back keeps keys pairwise distinct. -/
theorem keys_nodup_with_dwell {l : DwellStore} (h : keys_nodup l) :
    keys_nodup (with_dwell l) := by
  unfold keys_nodup with_dwell
  rw [List.map_map]
  have : (Prod.fst ∘ fun kv : String × DwellEntry => (kv.1, with_dwell_entry kv.2))
      = Prod.fst := by
    funext kv
    rfl
  rw [this]
  exact h

/-- Writing `dwell_hours` back keeps every entry under its own key. -/
theorem well_keyed_with_dwell {l : DwellStore} (h : well_keyed l) :
    well_keyed (with_dwell l) := by
  intro kv hkv
  obtain ⟨kv', h1, h2⟩ := List.mem_map.mp hkv
  rw [← h2]
  simpa [with_dwell_entry] using h kv' h1

/-- The alerts of one pass are exactly the long-dwell Narsarsuaq entries. -/
theorem mem_extended_dwell_alerts {l : DwellStore} {a : DwellAlert} :
    a ∈ extended_dwell_alerts l ↔
      ∃ kv ∈ l, (4 ≤ dwell_hours_of kv.2 ∧ kv.2.airport_icao = "BGBW") ∧
        a = mk_dwell_alert kv.2 := by
  unfold extended_dwell_alerts
  rw [List.mem_filterMap]
  constructor
  · rintro ⟨kv, hkv, hf⟩
    by_cases hc : 4 ≤ dwell_hours_of kv.2 ∧ kv.2.airport_icao = "BGBW"
    · rw [if_pos hc] at hf
      exact ⟨kv, hkv, hc, (Option.some.inj hf).symm⟩
    · rw [if_neg hc] at hf
      cases hf
  · rintro ⟨kv, hkv, hc, ha⟩
    exact ⟨kv, hkv, by rw [if_pos hc, ha]⟩

end DwellLemmas

section DwellCount

/-- In a well-keyed store with distinct keys, the alert pass emits exactly
one alert for a given entry when it meets the extended-dwell condition and
none otherwise. -/
theorem extended_dwell_alerts_count {l : DwellStore} {k : String} {e : DwellEntry}
    (hnd : keys_nodup l) (hwk : well_keyed l) (hmem : (k, e) ∈ l) :
    (extended_dwell_alerts l).countP
        (fun a => a.data.icao24 == e.icao24 && a.data.airport_icao == e.airport_icao)
      = if 4 ≤ dwell_hours_of e ∧ e.airport_icao = "BGBW" then 1 else 0 := by
  induction l with
  | nil => simp at hmem
  | cons kv t ih =>
    obtain ⟨k1, v1⟩ := kv
    simp only [keys_nodup, List.map_cons, List.nodup_cons] at hnd
    obtain ⟨hknotin, hnd'⟩ := hnd
    have hwk_head : k1 = v1.icao24 ++ "_" ++ v1.airport_icao :=
      hwk (k1, v1) (List.mem_cons_self (k1, v1) t)
    have hwk' : well_keyed t := fun x hx => hwk x (List.mem_cons_of_mem (k1, v1) hx)
    rcases List.mem_cons.mp hmem with he | he
    · injection he with hk1 hv1
      subst hk1
      subst hv1
      have htail0 : (extended_dwell_alerts t).countP
          (fun a => a.data.icao24 == e.icao24 && a.data.airport_icao == e.airport_icao)
            = 0 := by
        rw [List.countP_eq_zero]
        intro a ha
        rcases mem_extended_dwell_alerts.mp ha with ⟨kv', hkv', hc, haeq⟩
        rw [haeq]
        simp only [mk_dwell_alert, Bool.and_eq_true, beq_iff_eq, not_and]
        intro h1 h2
        have hkey : kv'.1 = k := by
          rw [hwk' kv' hkv', h1, h2, ← hwk_head]
        exact absurd (List.mem_map.mpr ⟨kv', hkv', hkey⟩) hknotin
      by_cases hc : 4 ≤ dwell_hours_of e ∧ e.airport_icao = "BGBW"
      · have hstep : extended_dwell_alerts ((k, e) :: t)
            = mk_dwell_alert e :: extended_dwell_alerts t := by
          unfold extended_dwell_alerts
          simp only [List.filterMap_cons, if_pos hc]
        rw [hstep, List.countP_cons, htail0]
        have hp : ((mk_dwell_alert e).data.icao24 == e.icao24
            && (mk_dwell_alert e).data.airport_icao == e.airport_icao) = true := by
          simp [mk_dwell_alert]
        rw [hp, if_pos hc]
        simp
      · have hstep : extended_dwell_alerts ((k, e) :: t) = extended_dwell_alerts t := by
          unfold extended_dwell_alerts
          simp only [List.filterMap_cons, if_neg hc]
        rw [hstep, htail0, if_neg hc]
    · have hke : k = e.icao24 ++ "_" ++ e.airport_icao := hwk' (k, e) he
      have hkne : ¬(v1.icao24 = e.icao24 ∧ v1.airport_icao = e.airport_icao) := by
        rintro ⟨h1, h2⟩
        have hkey : k1 = k := by
          rw [hwk_head, h1, h2, ← hke]
        exact absurd (List.mem_map.mpr ⟨(k, e), he, hkey.symm ▸ rfl⟩) hknotin
      have hp : ((mk_dwell_alert v1).data.icao24 == e.icao24
          && (mk_dwell_alert v1).data.airport_icao == e.airport_icao) = false := by
        rw [Bool.and_eq_false_iff]
        by_cases h1 : v1.icao24 = e.icao24
        · right
          rw [beq_eq_false_iff_ne]
          exact fun h2 => hkne ⟨h1, h2⟩
        · left
          rw [beq_eq_false_iff_ne]
          exact h1
      by_cases hc : 4 ≤ dwell_hours_of v1 ∧ v1.airport_icao = "BGBW"
      · have hstep : extended_dwell_alerts ((k1, v1) :: t)
            = mk_dwell_alert v1 :: extended_dwell_alerts t := by
          unfold extended_dwell_alerts
          simp only [List.filterMap_cons, if_pos hc]
        rw [hstep, List.countP_cons, hp]
        simpa using ih hnd' hwk' he
      · have hstep : extended_dwell_alerts ((k1, v1) :: t) = extended_dwell_alerts t := by
          unfold extended_dwell_alerts
          simp only [List.filterMap_cons, if_neg hc]
        rw [hstep]
        exact ih hnd' hwk' he

end DwellCount

/-- C3: in every invocation, each tracked entry keyed to the RED-signal
hub BGBW whose dwell is at least 4 hours yields exactly one
extended-dwell alert (field `priority` set to `HIGH`, field `type` to
`EXTENDED_DWELL`), and every other entry yields none.  The pass runs on
the post-update store alone, with no memory of earlier invocations'
alerts, so the same alert recurs each invocation while the condition
persists. -/
theorem C3_extended_dwell_alert_per_invocation
    (store : DwellStore) (records : List Record) (t : Int)
    (hnd : keys_nodup store) (hwk : well_keyed store)
    (k : String) (e : DwellEntry)
    (hmem : (k, e) ∈ with_dwell (updated_store store records)) :
    ((update_dwell_tracking store records t).2.countP
        (fun a => a.data.icao24 == e.icao24 && a.data.airport_icao == e.airport_icao)
      = if 4 ≤ dwell_hours_of e ∧ e.airport_icao = "BGBW" then 1 else 0) ∧
    (∀ a ∈ (update_dwell_tracking store records t).2,
      a.priority = "HIGH" ∧ a.alert_type = "EXTENDED_DWELL") := by
  have hnd2 : keys_nodup (with_dwell (updated_store store records)) :=
    keys_nodup_with_dwell (keys_nodup_updated_store records hnd)
  have hwk2 : well_keyed (with_dwell (updated_store store records)) :=
    well_keyed_with_dwell (well_keyed_updated_store records hwk)
  constructor
  · exact extended_dwell_alerts_count hnd2 hwk2 hmem
  · intro a ha
    simp only [update_dwell_tracking] at ha
    rcases mem_extended_dwell_alerts.mp ha with ⟨kv, _, _, haeq⟩
    rw [haeq]
    exact ⟨rfl, rfl⟩

/-- C3 at a concrete input: a store holding one Narsarsuaq entry with
exactly 4 hours of dwell and no new observations produces exactly one
HIGH extended-dwell alert for that entry. -/
theorem C3_witness :
    ((update_dwell_tracking c3_store [] 14400).2.countP
        (fun a => a.data.icao24 == (with_dwell_entry c3_entry).icao24
          && a.data.airport_icao == (with_dwell_entry c3_entry).airport_icao)
      = if 4 ≤ dwell_hours_of (with_dwell_entry c3_entry) ∧
            (with_dwell_entry c3_entry).airport_icao = "BGBW" then 1 else 0) ∧
    (∀ a ∈ (update_dwell_tracking c3_store [] 14400).2,
      a.priority = "HIGH" ∧ a.alert_type = "EXTENDED_DWELL") :=
  C3_extended_dwell_alert_per_invocation c3_store [] 14400
    (by simp [keys_nodup, c3_store])
    (by intro kv hkv; simp [c3_store] at hkv; rw [hkv]; rfl)
    "cafe01_BGBW" (with_dwell_entry c3_entry)
    (by simp [updated_store, with_dwell, c3_store])

section DwellInvariant

/-- Folding observations with non-decreasing timestamps, all at or after
everything already stored, preserves first-seen ≤ last-seen. -/
theorem dwell_inv_fold (records : List Record) :
    ∀ store : DwellStore, dwell_inv store →
      (∀ r ∈ records, ∀ kv ∈ store, kv.2.last_seen ≤ r.timestamp) →
      records.Pairwise (fun a b => a.timestamp ≤ b.timestamp) →
      dwell_inv (updated_store store records) := by
  induction records with
  | nil => intro store h _ _; exact h
  | cons r rest ih =>
    intro store hinv hb hp
    have hb_head : ∀ kv ∈ store, kv.2.last_seen ≤ r.timestamp :=
      hb r (List.mem_cons_self r rest)
    have hp' := List.pairwise_cons.mp hp
    have hinv' : dwell_inv (apply_observation store r) := by
      intro kv hkv
      rcases apply_observation_mem hkv with h1 | ⟨_, h1 | ⟨kv', hkv', _, heq⟩⟩
      · exact hinv kv h1
      · rw [h1]
        exact le_refl _
      · rw [heq]
        have h2 := hinv kv' hkv'
        have h3 := hb_head kv' hkv'
        simpa [updated_dwell_entry] using le_trans h2 h3
    have hbound' : ∀ r' ∈ rest, ∀ kv ∈ apply_observation store r,
        kv.2.last_seen ≤ r'.timestamp := by
      intro r' hr' kv hkv
      rcases apply_observation_mem hkv with h1 | ⟨_, h1 | ⟨kv', hkv', _, heq⟩⟩
      · exact hb r' (List.mem_cons_of_mem r hr') kv h1
      · rw [h1]
        simpa [new_dwell_entry] using hp'.1 r' hr'
      · rw [heq]
        simpa [updated_dwell_entry] using hp'.1 r' hr'
    exact ih (apply_observation store r) hinv' hbound' hp'.2

/-- Writing `dwell_hours` back does not move first-seen or last-seen. -/
theorem dwell_inv_with_dwell {l : DwellStore} (h : dwell_inv l) :
    dwell_inv (with_dwell l) := by
  intro kv hkv
  obtain ⟨kv', h1, h2⟩ := List.mem_map.mp hkv
  rw [← h2]
  simpa [with_dwell_entry] using h kv' h1

end DwellInvariant

/-- C8: when the incoming observations carry non-decreasing timestamps at
or after everything already stored, every entry of the store after the
update pass — and of the persisted store after cleanup — satisfies
first-seen ≤ last-seen.  A record is created with first = last = the
observation timestamp and later qualifying observations move only
last-seen (and the callsign), never first-seen, as `apply_observation_mem`
captures. -/
theorem C8_dwell_first_le_last (store : DwellStore) (records : List Record) (t : Int)
    (hinv : dwell_inv store)
    (hb : ∀ r ∈ records, ∀ kv ∈ store, kv.2.last_seen ≤ r.timestamp)
    (hmono : records.Pairwise (fun a b => a.timestamp ≤ b.timestamp)) :
    dwell_inv (with_dwell (updated_store store records)) ∧
    dwell_inv (update_dwell_tracking store records t).1 := by
  have h1 : dwell_inv (with_dwell (updated_store store records)) :=
    dwell_inv_with_dwell (dwell_inv_fold records store hinv hb hmono)
  refine ⟨h1, ?_⟩
  intro kv hkv
  simp only [update_dwell_tracking, clean_old] at hkv
  exact h1 kv (List.mem_of_mem_filter hkv)

/-- C8 at a concrete input: one qualifying observation entering an empty
store yields a store satisfying the invariant. -/
theorem C8_witness :
    dwell_inv (with_dwell (updated_store [] [c8_record])) ∧
    dwell_inv (update_dwell_tracking [] [c8_record] 100).1 :=
  C8_dwell_first_le_last [] [c8_record] 100
    (by intro kv hkv; simp at hkv)
    (by intro r hr kv hkv; simp at hkv)
    (by simp)

/-- C1 fails on the code: the 48-hour eviction runs AFTER the new
observations are folded in, not before.  A record last seen at time 0,
hit by a qualifying observation at time 190800 (53 h later, so more than
48 h stale at invocation time), is extended in place — the persisted
store still carries first-seen 0, not a fresh record with first-seen
190800. -/
theorem C1_counterexample :
    ((update_dwell_tracking [("a1b2c3_BGGH", c1_stale_entry)] [c1_new_record] 190800).1.map
        (fun kv => (kv.1, kv.2.first_seen, kv.2.last_seen)))
      = [("a1b2c3_BGGH", ((0 : Int), (190800 : Int)))] ∧
    (0 : Int) ≠ (190800 : Int) := by
  constructor
  · rfl
  · decide

/-- C1 (amended): eviction is evaluated once per invocation AFTER the new
observations are processed.  A tracked record stale by more than 48 hours
that receives a qualifying observation with a fresh timestamp is retained
and extended — its first-seen is preserved and its last-seen becomes the
observation's timestamp — while a stale record receiving no observation is
deleted. -/
theorem C1_eviction_after_processing (store : DwellStore) (k : String) (e : DwellEntry)
    (t : Int) (hnd : keys_nodup store) (hmem : (k, e) ∈ store)
    (hstale : e.last_seen ≤ t - 48 * 3600) :
    (∀ r : Record, qualifies r = true → dwell_key r = k → t - 48 * 3600 < r.timestamp →
      ∃ e', (k, e') ∈ (update_dwell_tracking store [r] t).1 ∧
        e'.first_seen = e.first_seen ∧ e'.last_seen = r.timestamp) ∧
    (∀ e', (k, e') ∉ (update_dwell_tracking store [] t).1) := by
  constructor
  · intro r hq hk hfresh
    have hlookup : (List.lookup (dwell_key r) store).isSome = true := by
      rw [hk]
      exact lookup_isSome_of_mem hmem
    have happly : (k, updated_dwell_entry e r) ∈ apply_observation store r := by
      simp only [apply_observation]
      rw [if_pos hq]
      rcases hl : List.lookup (dwell_key r) store with _ | e0
      · rw [hl] at hlookup
        simp at hlookup
      · refine List.mem_map.mpr ⟨(k, e), hmem, ?_⟩
        rw [if_pos hk.symm]
    have hmem2 : (k, with_dwell_entry (updated_dwell_entry e r))
        ∈ with_dwell (updated_store store [r]) :=
      List.mem_map.mpr ⟨(k, updated_dwell_entry e r), happly, rfl⟩
    refine ⟨with_dwell_entry (updated_dwell_entry e r), ?_, rfl, rfl⟩
    simp only [update_dwell_tracking, clean_old]
    refine List.mem_filter.mpr ⟨hmem2, ?_⟩
    exact decide_eq_true hfresh
  · intro e' he'
    simp only [update_dwell_tracking, clean_old, updated_store, List.foldl_nil] at he'
    obtain ⟨hmem', hdec⟩ := List.mem_filter.mp he'
    obtain ⟨kv', hkv', heq⟩ := List.mem_map.mp hmem'
    injection heq with hk1 hk2
    have hm : (k, kv'.2) ∈ store := by
      rw [← hk1]
      exact hkv'
    have hke : kv'.2 = e := nodup_key_unique hnd hm hmem
    rw [← hk2, hke] at hdec
    have hlast : (with_dwell_entry e).last_seen = e.last_seen := rfl
    rw [hlast] at hdec
    have := of_decide_eq_true hdec
    omega

/-- C1 at a concrete input: the 53-hours-stale record from the
counterexample is extended, keeping first-seen 0, by any qualifying
fresh observation, and is deleted when no observation arrives. -/
theorem C1_witness :
    (∀ r : Record, qualifies r = true → dwell_key r = "a1b2c3_BGGH" →
        (190800 : Int) - 48 * 3600 < r.timestamp →
        ∃ e', ("a1b2c3_BGGH", e') ∈
            (update_dwell_tracking [("a1b2c3_BGGH", c1_stale_entry)] [r] 190800).1 ∧
          e'.first_seen = c1_stale_entry.first_seen ∧ e'.last_seen = r.timestamp) ∧
    (∀ e', ("a1b2c3_BGGH", e') ∉
        (update_dwell_tracking [("a1b2c3_BGGH", c1_stale_entry)] [] 190800).1) :=
  C1_eviction_after_processing [("a1b2c3_BGGH", c1_stale_entry)] "a1b2c3_BGGH"
    c1_stale_entry 190800 (by simp [keys_nodup]) (by simp) (by decide)

section NearestLemmas

/-- What the running-minimum scan returns when started from a candidate
`b`: a best `c` no farther than `b` and than anything in the list, which
is either `b` itself (nothing in the list beat it strictly) or the first
list element strictly better than `b` and than everything before it. -/
theorem nearest_fold_spec (lat lon : ℝ) :
    ∀ (l : List (String × LocInfo)) (b : String × String × ℝ),
      ∃ c, l.foldl (nearest_step lat lon) (some b) = some c ∧ c.2.2 ≤ b.2.2 ∧
        (∀ q ∈ l, c.2.2 ≤ loc_dist lat lon q) ∧
        (c = b ∨ ∃ l1 p l2, l = l1 ++ p :: l2 ∧
          c = (p.1, p.2.name, loc_dist lat lon p) ∧ c.2.2 < b.2.2 ∧
          ∀ q ∈ l1, c.2.2 < loc_dist lat lon q) := by
  intro l
  induction l with
  | nil =>
    intro b
    exact ⟨b, rfl, le_refl _, by simp, Or.inl rfl⟩
  | cons x l' ih =>
    intro b
    rw [List.foldl_cons]
    by_cases hx : loc_dist lat lon x < b.2.2
    · have hstep : nearest_step lat lon (some b) x
          = some (x.1, x.2.name, loc_dist lat lon x) := by
        simp only [nearest_step]
        rw [if_pos hx]
      rw [hstep]
      obtain ⟨c, hfold, hle, hall, hcases⟩ := ih (x.1, x.2.name, loc_dist lat lon x)
      refine ⟨c, hfold, le_of_lt (lt_of_le_of_lt hle hx), ?_, ?_⟩
      · intro q hq
        rcases List.mem_cons.mp hq with h1 | h1
        · rw [h1]
          exact hle
        · exact hall q h1
      · right
        rcases hcases with hc | ⟨l1, p, l2, hsplit, hcp, hclt, hfirst⟩
        · refine ⟨[], x, l', by simp, hc, ?_, by simp⟩
          rw [hc]
          exact hx
        · refine ⟨x :: l1, p, l2, by rw [hsplit, List.cons_append], hcp,
            lt_trans hclt hx, ?_⟩
          intro q hq
          rcases List.mem_cons.mp hq with h1 | h1
          · rw [h1]
            exact hclt
          · exact hfirst q h1
    · have hstep : nearest_step lat lon (some b) x = some b := by
        simp only [nearest_step]
        rw [if_neg hx]
      rw [hstep]
      obtain ⟨c, hfold, hle, hall, hcases⟩ := ih b
      have hbx : b.2.2 ≤ loc_dist lat lon x := le_of_not_lt hx
      refine ⟨c, hfold, hle, ?_, ?_⟩
      · intro q hq
        rcases List.mem_cons.mp hq with h1 | h1
        · rw [h1]
          exact le_trans hle hbx
        · exact hall q h1
      · rcases hcases with hc | ⟨l1, p, l2, hsplit, hcp, hclt, hfirst⟩
        · exact Or.inl hc
        · refine Or.inr ⟨x :: l1, p, l2, by rw [hsplit, List.cons_append], hcp, hclt, ?_⟩
          intro q hq
          rcases List.mem_cons.mp hq with h1 | h1
          · rw [h1]
            exact lt_of_lt_of_le hclt hbx
          · exact hfirst q h1

/-- The scan over a nonempty registry returns the first minimizer. -/
theorem nearest_go_spec (lat lon : ℝ) (a : String × LocInfo)
    (rest : List (String × LocInfo)) :
    ∃ l1 p l2, a :: rest = l1 ++ p :: l2 ∧
      (a :: rest).foldl (nearest_step lat lon) none
        = some (p.1, p.2.name, loc_dist lat lon p) ∧
      (∀ q ∈ a :: rest, loc_dist lat lon p ≤ loc_dist lat lon q) ∧
      (∀ q ∈ l1, loc_dist lat lon p < loc_dist lat lon q) := by
  rw [List.foldl_cons]
  have hstep0 : nearest_step lat lon none a
      = some (a.1, a.2.name, loc_dist lat lon a) := rfl
  rw [hstep0]
  obtain ⟨c, hfold, hle, hall, hcases⟩ :=
    nearest_fold_spec lat lon rest (a.1, a.2.name, loc_dist lat lon a)
  rcases hcases with hc | ⟨l1, p, l2, hsplit, hcp, hclt, hfirst⟩
  · rw [hc] at hfold hall
    refine ⟨[], a, rest, by simp, hfold, ?_, by simp⟩
    intro q hq
    rcases List.mem_cons.mp hq with h1 | h1
    · rw [h1]
    · exact hall q h1
  · rw [hcp] at hfold hclt hfirst hall
    refine ⟨a :: l1, p, l2, by rw [hsplit, List.cons_append], hfold, ?_, ?_⟩
    · intro q hq
      rcases List.mem_cons.mp hq with h1 | h1
      · rw [h1]
        exact le_of_lt hclt
      · exact hall q h1
    · intro q hq
      rcases List.mem_cons.mp hq with h1 | h1
      · rw [h1]
        exact hclt
      · exact hfirst q h1

end NearestLemmas

/-- C7: `find_nearest_airport` returns, over the union of the airport and
heliport registries, the point of minimal haversine distance to the query;
the registry splits as `l1 ++ p :: l2` with the returned point `p` no
farther than anything registered and strictly nearer than everything
registered before it — on exact ties the earlier-registered point wins,
because the running minimum is replaced only on a strict `<`. -/
theorem C7_nearest_airport_first_min (lat lon : ℝ) :
    ∃ l1 p l2,
      all_locations = l1 ++ p :: l2 ∧
      find_nearest_airport lat lon = some (p.1, p.2.name, loc_dist lat lon p) ∧
      (∀ q ∈ all_locations, loc_dist lat lon p ≤ loc_dist lat lon q) ∧
      (∀ q ∈ l1, loc_dist lat lon p < loc_dist lat lon q) := by
  rcases hl : all_locations with _ | ⟨a, rest⟩
  · exfalso
    simp [all_locations, GREENLAND_AIRPORTS, MINING_HELIPORTS] at hl
  · obtain ⟨l1, p, l2, h1, h2, h3, h4⟩ := nearest_go_spec lat lon a rest
    refine ⟨l1, p, l2, h1, ?_, ?_, h4⟩
    · simp only [find_nearest_airport]
      rw [hl]
      exact h2
    · intro q hq
      exact h3 q hq

/-- The mine scan is a first-match search, not a minimum search. -/
theorem first_mine_within_eq_find (lat lon t : ℝ) (l : List (String × MineInfo)) :
    first_mine_within lat lon t l
      = (l.find? (fun p => decide (haversine_km lat lon p.2.lat p.2.lon ≤ t))).map
          (fun p => (p.1, p.2.name, p.2.company, haversine_km lat lon p.2.lat p.2.lon)) := by
  induction l with
  | nil => rfl
  | cons p rest ih =>
    by_cases hc : haversine_km lat lon p.2.lat p.2.lon ≤ t
    · simp only [first_mine_within]
      rw [if_pos hc, List.find?_cons_of_pos _ (by simpa using hc)]
      rfl
    · simp only [first_mine_within]
      rw [if_neg hc, List.find?_cons_of_neg _ (by simpa using hc)]
      exact ih

/-- C2 (amended): `find_nearest_mine` returns the FIRST project in
registration order whose haversine distance is within the threshold,
together with that project's distance — not the distance-minimizing
project — and returns nothing exactly when no project is within the
threshold. -/
theorem C2_first_match_within_threshold (lat lon t : ℝ) :
    (find_nearest_mine lat lon t
      = (MINING_PROJECTS.find?
            (fun p => decide (haversine_km lat lon p.2.lat p.2.lon ≤ t))).map
          (fun p => (p.1, p.2.name, p.2.company,
            haversine_km lat lon p.2.lat p.2.lon))) ∧
    (find_nearest_mine lat lon t = none ↔
      ∀ p ∈ MINING_PROJECTS, t < haversine_km lat lon p.2.lat p.2.lon) := by
  have heq := first_mine_within_eq_find lat lon t MINING_PROJECTS
  constructor
  · exact heq
  · rw [show find_nearest_mine lat lon t
        = first_mine_within lat lon t MINING_PROJECTS from rfl, heq]
    simp [List.find?_eq_none, not_le]

section HaversineBounds

/-- `arctan` is dominated by the identity on the nonnegative axis. -/
theorem arctan_le_self_of_nonneg {x : ℝ} (hx : 0 ≤ x) : Real.arctan x ≤ x := by
  rcases eq_or_lt_of_le hx with h | h
  · rw [← h, Real.arctan_zero]
  · have h1 : 0 < Real.arctan x := by
      have := Real.arctan_strictMono h
      rwa [Real.arctan_zero] at this
    have h2 : Real.arctan x < Real.pi / 2 := Real.arctan_lt_pi_div_two x
    have h3 := Real.le_tan (le_of_lt h1) h2
    rwa [Real.tan_arctan] at h3

/-- The haversine `a` vanishes on coincident points. -/
theorem hav_a_self (lat lon : ℝ) : hav_a lat lon lat lon = 0 := by
  unfold hav_a radians
  simp

/-- The haversine distance from a point to itself is zero. -/
theorem haversine_self (lat lon : ℝ) : haversine_km lat lon lat lon = 0 := by
  unfold haversine_km atan2
  rw [hav_a_self]
  simp

/-- When the haversine `a` is positive and at most `10⁻⁶`, the distance is
positive and well within 50 km. -/
theorem haversine_le_of_a_small {lat1 lon1 lat2 lon2 : ℝ}
    (h0 : 0 < hav_a lat1 lon1 lat2 lon2)
    (h1 : hav_a lat1 lon1 lat2 lon2 ≤ 1 / 1000000) :
    0 < haversine_km lat1 lon1 lat2 lon2 ∧ haversine_km lat1 lon1 lat2 lon2 ≤ 50 := by
  set a := hav_a lat1 lon1 lat2 lon2 with ha
  have h1a : (0 : ℝ) < 1 - a := by nlinarith
  have heq : haversine_km lat1 lon1 lat2 lon2
      = 6371 * 2 * Real.arctan (Real.sqrt a / Real.sqrt (1 - a)) := by
    unfold haversine_km atan2
    rw [← ha, if_pos (Real.sqrt_pos.mpr h1a)]
  have hu_pos : 0 < Real.sqrt a / Real.sqrt (1 - a) :=
    div_pos (Real.sqrt_pos.mpr h0) (Real.sqrt_pos.mpr h1a)
  constructor
  · rw [heq]
    have harc : 0 < Real.arctan (Real.sqrt a / Real.sqrt (1 - a)) := by
      have := Real.arctan_strictMono hu_pos
      rwa [Real.arctan_zero] at this
    nlinarith
  · rw [heq]
    have hsa : Real.sqrt a ≤ 1 / 1000 := by
      rw [show (1 / 1000 : ℝ) = Real.sqrt ((1 / 1000) ^ 2) from
        (Real.sqrt_sq (by norm_num)).symm]
      exact Real.sqrt_le_sqrt (by nlinarith)
    have hs1a : (1 / 2 : ℝ) ≤ Real.sqrt (1 - a) := by
      rw [show (1 / 2 : ℝ) = Real.sqrt ((1 / 2) ^ 2) from
        (Real.sqrt_sq (by norm_num)).symm]
      exact Real.sqrt_le_sqrt (by nlinarith)
    have hu : Real.sqrt a / Real.sqrt (1 - a) ≤ (1 / 1000) / (1 / 2) :=
      div_le_div₀ (by norm_num) hsa (by norm_num) hs1a
    have hat := arctan_le_self_of_nonneg (le_of_lt hu_pos)
    nlinarith

/-- Numeric bounds on the haversine `a` between the query at Kvanefjeld's
coordinates and the Tanbreez site. -/
theorem c2_a_bounds :
    0 < hav_a 60.98 (-45.90) 60.95 (-45.95) ∧
    hav_a 60.98 (-45.90) 60.95 (-45.95) ≤ 1 / 1000000 := by
  have hpi : (0 : ℝ) < Real.pi := Real.pi_pos
  have hpi4 : Real.pi ≤ 4 := Real.pi_le_four
  have hpi2 : Real.pi ^ 2 ≤ 16 := by nlinarith
  unfold hav_a radians
  set x1 : ℝ := ((60.95 : ℝ) - 60.98) * (Real.pi / 180) / 2 with hx1
  set x2 : ℝ := ((-45.95 : ℝ) - -45.90) * (Real.pi / 180) / 2 with hx2
  have hs1ub : Real.sin x1 ^ 2 ≤ (1 / 3000) ^ 2 := by
    have h := Real.sin_sq_le_sq (x := x1)
    have hx1sq : x1 ^ 2 ≤ (1 / 3000) ^ 2 := by
      rw [hx1]
      nlinarith
    exact le_trans h hx1sq
  have hs2ub : Real.sin x2 ^ 2 ≤ (1 / 1800) ^ 2 := by
    have h := Real.sin_sq_le_sq (x := x2)
    have hx2sq : x2 ^ 2 ≤ (1 / 1800) ^ 2 := by
      rw [hx2]
      nlinarith
    exact le_trans h hx2sq
  have hc1pos : 0 < Real.cos ((60.98 : ℝ) * (Real.pi / 180)) := by
    apply Real.cos_pos_of_mem_Ioo
    constructor
    · nlinarith
    · nlinarith
  have hc2pos : 0 < Real.cos ((60.95 : ℝ) * (Real.pi / 180)) := by
    apply Real.cos_pos_of_mem_Ioo
    constructor
    · nlinarith
    · nlinarith
  have hc1le : Real.cos ((60.98 : ℝ) * (Real.pi / 180)) ≤ 1 := Real.cos_le_one _
  have hc2le : Real.cos ((60.95 : ℝ) * (Real.pi / 180)) ≤ 1 := Real.cos_le_one _
  have hs1pos : 0 < Real.sin x1 ^ 2 := by
    have hx1neg : x1 < 0 := by
      rw [hx1]
      nlinarith
    have hx1gt : -Real.pi < x1 := by
      rw [hx1]
      nlinarith
    have hsin_neg : Real.sin x1 < 0 := by
      have := Real.sin_pos_of_pos_of_lt_pi (x := -x1) (by linarith) (by linarith)
      rw [Real.sin_neg] at this
      linarith
    have hne : Real.sin x1 ≠ 0 := ne_of_lt hsin_neg
    rw [pow_two]
    exact mul_self_pos.mpr hne
  have hs2nonneg : 0 ≤ Real.sin x2 ^ 2 := sq_nonneg _
  have hc1c2 : Real.cos ((60.98 : ℝ) * (Real.pi / 180))
      * Real.cos ((60.95 : ℝ) * (Real.pi / 180)) ≤ 1 :=
    mul_le_one₀ hc1le hc2pos.le hc2le
  have hprod_nonneg : 0 ≤ Real.cos ((60.98 : ℝ) * (Real.pi / 180))
      * Real.cos ((60.95 : ℝ) * (Real.pi / 180)) * Real.sin x2 ^ 2 :=
    mul_nonneg (mul_nonneg hc1pos.le hc2pos.le) hs2nonneg
  have hprod_le : Real.cos ((60.98 : ℝ) * (Real.pi / 180))
      * Real.cos ((60.95 : ℝ) * (Real.pi / 180)) * Real.sin x2 ^ 2
        ≤ Real.sin x2 ^ 2 :=
    mul_le_of_le_one_left hs2nonneg hc1c2
  constructor
  · linarith
  · linarith

end HaversineBounds

/-- C2 fails on the code: queried exactly at Kvanefjeld's coordinates
(60.98, -45.90) with the source's 50 km threshold, `find_nearest_mine`
returns Tanbreez — the first project in registration order within the
threshold — at a strictly positive distance, even though the registered
project Kvanefjeld lies at distance 0, so the returned project does not
minimize the haversine distance. -/
theorem C2_counterexample :
    find_nearest_mine 60.98 (-45.90) 50
      = some ("tanbreez", "Tanbreez/Kringlerne", "Critical Metals Corp",
          haversine_km 60.98 (-45.90) 60.95 (-45.95)) ∧
    ("kvanefjeld",
        ({ name := "Kvanefjeld", lat := 60.98, lon := -45.90,
           company := "Energy Transition Minerals" } : MineInfo)) ∈ MINING_PROJECTS ∧
    haversine_km 60.98 (-45.90) 60.98 (-45.90) = 0 ∧
    0 < haversine_km 60.98 (-45.90) 60.95 (-45.95) := by
  obtain ⟨hpos, hle⟩ := haversine_le_of_a_small c2_a_bounds.1 c2_a_bounds.2
  refine ⟨?_, ?_, haversine_self _ _, hpos⟩
  · show first_mine_within 60.98 (-45.90) 50 MINING_PROJECTS = _
    simp only [MINING_PROJECTS, first_mine_within]
    rw [if_pos hle]
  · simp [MINING_PROJECTS]
